import Mathlib

/-!
Verification of the git-workflow orchestration core of the `to-self` /
`to-test` / `to-main` CLI (repository `cicd-template`).

The development shallowly embeds the TypeScript source:

* pure string helpers (`hasConventionalPrefix`, `getRemoteFromUpstream`,
  `parseRemoteUrl`, `buildCreateMrUrl`, the commit-message composition of
  `commitIfDirty`) become Lean functions over `String`/`List Char`;
* stateful orchestration (`commitIfDirty`, `getPreferredRemote`,
  `remoteBranchExists`, `pullIfPossible`, `mergeRemoteBranchIntoCurrent`,
  `createMergeRequest`, `toMain`) is embedded as functions from an explicit
  environment (the answers git and the shell would give) to a trace of
  repository-mutating effects plus an optional error;
* JavaScript semantics that the source relies on (string truthiness,
  `String.prototype.trim`, the regexes it tests, `encodeURIComponent`,
  the WHATWG `URL` host/pathname extraction for ssh/http/https remotes)
  are modelled explicitly below, next to their uses.
-/

/-! ## JavaScript string primitives -/

/-- The whitespace class used by JS `String.prototype.trim` and the regex
class `\s`, restricted to the code points that can realistically appear in
commit messages and remote URLs (ASCII whitespace, NBSP, BOM). -/
def isJsSpace (c : Char) : Bool :=
  c = ' ' || c = '\t' || c = '\n' || c = '\r' || c = '\x0b' || c = '\x0c' ||
  c = '\u00A0' || c = '\uFEFF'

/-- JS `String.prototype.trim` on the character list. -/
def jsTrimList (l : List Char) : List Char :=
  ((l.dropWhile isJsSpace).reverse.dropWhile isJsSpace).reverse

/-- JS `String.prototype.trim`. -/
def jsTrim (s : String) : String :=
  String.mk (jsTrimList s.toList)

/-- JS truthiness of a `string | undefined | null` value: `none` and the
empty string are falsy. -/
def jsTruthy : Option String → Bool
  | none => false
  | some s => s ≠ ""

/-! ## Generic list/string helpers (kernel-reducible replacements for the
platform string functions the source uses) -/

/-- Split a character list at the first occurrence of `c`:
`splitAtFirst c l = some (pre, post)` with `l = pre ++ c :: post` and
`c ∉ pre`; `none` when `c` does not occur (JS `indexOf` returning `-1`). -/
def splitAtFirst (c : Char) : List Char → Option (List Char × List Char)
  | [] => none
  | a :: rest =>
    if a = c then some ([], rest)
    else
      match splitAtFirst c rest with
      | some (pre, post) => some (a :: pre, post)
      | none => none

/-- Auxiliary accumulator for `splitOnChar`. -/
def splitOnCharAux (c : Char) : List Char → List Char → List (List Char)
  | [], acc => [acc.reverse]
  | a :: rest, acc =>
    if a = c then acc.reverse :: splitOnCharAux c rest []
    else splitOnCharAux c rest (a :: acc)

/-- JS `"...".split(c)` on character lists (always returns at least one,
possibly empty, field — like the JS method). -/
def splitOnChar (c : Char) (cs : List Char) : List (List Char) :=
  splitOnCharAux c cs []

/-- Does `pre` occur at the start of `s` (JS `startsWith`). -/
def strStartsWith (s pre : String) : Bool :=
  pre.toList.isPrefixOf s.toList

/-- Does `suf` occur at the end of `l`. -/
def listEndsWith (l suf : List Char) : Bool :=
  suf.reverse.isPrefixOf l.reverse

/-- Drop the first `n` characters (JS `slice(n)`). -/
def strDrop (s : String) (n : Nat) : String :=
  String.mk (s.toList.drop n)

/-- Does `needle` occur as a contiguous substring of the character list. -/
def subOccurs (needle : List Char) : List Char → Bool
  | [] => needle.isEmpty
  | a :: rest => needle.isPrefixOf (a :: rest) || subOccurs needle rest

/-- JS `hay.includes(needle)`. -/
def strContains (hay needle : String) : Bool :=
  subOccurs needle.toList hay.toList

/-- JS `Array.prototype.join("\n")`. -/
def strJoinNl : List String → String
  | [] => ""
  | [s] => s
  | s :: rest => s ++ "\n" ++ strJoinNl rest

/-- JS `Array.prototype.join("/")`. -/
def strJoinSlash : List String → String
  | [] => ""
  | [s] => s
  | s :: rest => s ++ "/" ++ strJoinSlash rest

/-! ## The conventional-commit prefix test

The source tests `/^[a-z]+(\([^)]+\))?!?:\s+/` against `message.trim()`
(`hasConventionalPrefix` in `src/utils/git.ts`).  Because each regex piece
is a character class the engine's backtracking is irrelevant: the match is
the maximal-munch parse implemented below. -/

/-- `[a-z]` (ASCII lowercase letter). -/
def isAsciiLower (c : Char) : Bool :=
  'a' ≤ c && c ≤ 'z'

/-- Matches `:\s+` at the head of the list (a colon followed by at least
one whitespace character). -/
def matchColonWs : List Char → Bool
  | ':' :: c :: _ => isJsSpace c
  | _ => false

/-- Matches `!?:\s+` at the head of the list. -/
def matchBangColon : List Char → Bool
  | '!' :: rest =>
    -- `!?` takes the bang greedily; skipping it would require `:` = `!`.
    matchColonWs ('!' :: rest) || matchColonWs rest
  | rest => matchColonWs rest

/-- Matches `(\([^)]+\))?!?:\s+` at the head of the list. -/
def matchScopeGroup : List Char → Bool
  | '(' :: rest =>
    -- If the optional group fails, falling back to `!?:\s+` at `(` fails
    -- too, so the group must match: a nonempty run of non-`)` characters
    -- closed by `)`.
    (match rest.span (fun c => c ≠ ')') with
     | (inside, ')' :: after) => ¬ inside.isEmpty && matchBangColon after
     | _ => false)
  | rest => matchBangColon rest

/-- Matches `^[a-z]+(\([^)]+\))?!?:\s+` against the character list. -/
def matchConvCore (cs : List Char) : Bool :=
  match cs.span isAsciiLower with
  | ([], _) => false
  | (_ :: _, rest) => matchScopeGroup rest

/-- `hasConventionalPrefix` from the source: does the trimmed message carry
a `type: ...` / `type(scope): ...` / `type!: ...` conventional marker. -/
def hasConventionalTag (message : String) : Bool :=
  matchConvCore (jsTrim message).toList

/-! ## Commit types (`src/utils/constant.ts`) -/

/-- The `value` fields of `COMMIT_TYPES`. -/
def commitTypeValues : List String :=
  ["feat", "fix", "to", "docs", "style", "refactor", "perf", "test",
   "chore", "revert", "merge", "sync"]

/-- `isRecognizedCommitType` from the source: falsy values are rejected,
otherwise membership in the enumerated commit types. -/
def isRecognizedCommitType (value : String) : Bool :=
  value ≠ "" && commitTypeValues.contains value

/-! ## The git environment and effect traces

Each orchestration function is embedded as a function from a `GitEnv`
(the answers the underlying `git` subprocess calls would return) to the
list of repository-mutating effects it performs plus an optional error.
Read-only queries (`status`, `rev-parse`, `ls-remote`, `remote get-url`)
are environment lookups, not effects. -/

/-- A file entry of `git status` as surfaced by `simple-git`. -/
structure StatusFile where
  path : String
  index : Option String
  working_dir : Option String
deriving Repr, DecidableEq

/-- Repository-mutating (or externally visible) actions. -/
inductive GitEffect where
  | addAll
  | commit (message : String)
  | pullTracked
  | pullFrom (remote branch : String)
  | push (remote branch : String) (options : List String)
  | fetch (remote branch : String)
  | merge (ref : String)
  | reportConflicts (paths : List String)
  | runTool (tool : String)
deriving Repr, DecidableEq

/-- The state of the repository and the outcomes of the external commands,
as observed by one invocation. -/
structure GitEnv where
  /-- `git.checkIsRepo()` -/
  isRepo : Bool
  /-- `(await git.branch()).current`; empty or `"HEAD"` means detached. -/
  currentBranch : String
  /-- `(await git.status()).files` before any mutation. -/
  statusFiles : List StatusFile
  /-- `git diff --cached --name-only` output right after `git add -A`. -/
  stagedDiff : String
  /-- `getUpstreamRef`: the `@{u}` ref, `none` when unset/unresolvable. -/
  upstream : Option String
  /-- names of `git.getRemotes(true)`, in listing order. -/
  remotes : List String
  /-- `git remote get-url <name>` output. -/
  remoteUrl : String → String
  /-- `git ls-remote --heads <remote> <branch>`: `none` when the command
  fails (network, auth, ...), otherwise its stdout. -/
  lsRemote : String → String → Option String
  /-- whether `git pull` succeeds. -/
  pullSucceeds : Bool
  /-- whether `git fetch <remote> <branch>` succeeds. -/
  fetchSucceeds : Bool
  /-- whether `git merge <remote>/<branch>` succeeds. -/
  mergeSucceeds : Bool
  /-- whether `git push` succeeds. -/
  pushSucceeds : Bool
  /-- `(await git.status()).conflicted` re-inspected after a failed
  pull/merge. -/
  statusAfterFail : List String

/-- Terminal interactivity and the answers the user would give to the
`inquirer` prompts (`promptCommitSubject` returns a trimmed nonempty
subject, `promptCommitScope` a trimmed scope or the empty string). -/
structure Tty where
  isTTY : Bool
  subjectAnswer : String
  typeAnswer : String
  scopeAnswer : String

/-- The `options` argument of `commitIfDirty`. -/
structure CommitOptions where
  commitMessage : Option String
  commitType : Option String

/-- Errors thrown by `commitIfDirty`.  The source throws plain `Error`s;
the constructors record the three distinct throw sites. -/
inductive CommitErr where
  /-- `unknown commit type: ... (allowed: ...)` -/
  | unknownCommitType (candidate : String)
  /-- `working tree has changes; pass --message in non-interactive mode` -/
  | missingMessage
  /-- `commit message has no type prefix; pass --type or use an
  already-prefixed message like feat: ...` -/
  | missingTypeInfo
deriving Repr, DecidableEq

/-- The spec's error taxonomy (section 7) groups both non-interactive
throw sites of `commitIfDirty` under `MissingCommitMetadata`. -/
def isMissingCommitMetadata : CommitErr → Bool
  | .missingMessage => true
  | .missingTypeInfo => true
  | .unknownCommitType _ => false

/-- The `options.commitType` handling of `commitIfDirty`: a falsy value is
ignored; otherwise the trimmed candidate must be a recognized commit type. -/
def checkCommitType : Option String → Except CommitErr (Option String)
  | none => .ok none
  | some s =>
    if s = "" then .ok none
    else
      let candidate := jsTrim s
      if isRecognizedCommitType candidate then .ok (some candidate)
      else .error (.unknownCommitType candidate)

/-- The `if (!message || !type) { ... }` block of `commitIfDirty`:
the non-interactive guard, then the subject/type prompts.  `message0` is
the already-trimmed supplied message, `type0` the validated supplied type;
returns the resolved message and type. -/
def resolveMessage (tty : Tty) (message0 : Option String)
    (type0 : Option String) : Except CommitErr (String × Option String) :=
  if jsTruthy message0 && type0.isSome then
    .ok (message0.getD "", type0)
  else
    let guardResult : Except CommitErr Unit :=
      if tty.isTTY then .ok ()
      else if ¬ jsTruthy message0 then .error .missingMessage
      else if type0.isNone && ¬ hasConventionalTag (message0.getD "") then
        .error .missingTypeInfo
      else .ok ()
    match guardResult with
    | .error e => .error e
    | .ok _ =>
      let m := if jsTruthy message0 then message0.getD "" else tty.subjectAnswer
      let t := if type0.isNone && ¬ hasConventionalTag m then some tty.typeAnswer
               else type0
      .ok (m, t)

/-- The final-message ternary of `commitIfDirty` (lines 506–511):
`hasConventionalPrefix(message) || !type ? message
 : scope ? "type(scope): msg" : "type: msg"`. -/
def composeFinalMessage (type? : Option String) (scope message : String) :
    String :=
  if hasConventionalTag message || ¬ jsTruthy type? then message
  else
    let t := type?.getD ""
    if scope ≠ "" then t ++ "(" ++ scope ++ "): " ++ jsTrim message
    else t ++ ": " ++ jsTrim message

/-- `commitIfDirty`: stage everything when the tree is dirty, derive the
commit message (supplied / prompted), and commit.  Returns the effect
trace and the error, if one was thrown. -/
def commitIfDirty (env : GitEnv) (tty : Tty) (opts : CommitOptions) :
    List GitEffect × Option CommitErr :=
  if env.statusFiles.isEmpty then ([], none)
  else
    -- `git add -A` happens before the staged-diff re-check.
    if jsTrim env.stagedDiff = "" then ([.addAll], none)
    else
      match checkCommitType opts.commitType with
      | .error e => ([.addAll], some e)
      | .ok type0 =>
        match resolveMessage tty (opts.commitMessage.map jsTrim) type0 with
        | .error e => ([.addAll], some e)
        | .ok (m, t) =>
          let shouldPromptScope := tty.isTTY && ¬ jsTruthy opts.commitMessage
          let scope :=
            if shouldPromptScope && jsTruthy t && m ≠ "" &&
               ¬ hasConventionalTag m
            then tty.scopeAnswer else ""
          ([.addAll, .commit (composeFinalMessage t scope m)], none)

/-! ## Remote resolution (`getRemoteFromUpstream`, `getPreferredRemote`,
`remoteBranchExists`) -/

/-- `getRemoteFromUpstream`: the part of `remote/branch` before the first
slash; `null` when the first slash is absent or at index 0. -/
def getRemoteFromUpstream (upstream : String) : Option String :=
  match splitAtFirst '/' upstream.toList with
  | none => none
  | some ([], _) => none
  | some (pre, _) => some (String.mk pre)

/-- The single failure of `getPreferredRemote`
(`no git remotes found (expected origin)`). -/
inductive RemoteErr where
  | noRemoteConfigured
deriving Repr, DecidableEq

/-- The fallback of `getPreferredRemote` once the upstream gave no remote:
`origin` if listed, else the first remote, else the error. -/
def preferredFallback (names : List String) : Except RemoteErr String :=
  if names.contains "origin" then .ok "origin"
  else
    match names with
    | n :: _ => .ok n
    | [] => .error .noRemoteConfigured

/-- `getPreferredRemote`: upstream remote first, then `origin`, then the
first remote in listing order. -/
def getPreferredRemote (env : GitEnv) : Except RemoteErr String :=
  match env.upstream with
  | some u =>
    match getRemoteFromUpstream u with
    | some r => .ok r
    | none => preferredFallback env.remotes
  | none => preferredFallback env.remotes

/-- `remoteBranchExists`: `ls-remote --heads`; any failure degrades to
`false`, success returns whether the trimmed output is nonempty. -/
def remoteBranchExists (env : GitEnv) (remote branch : String) : Bool :=
  match env.lsRemote remote branch with
  | none => false
  | some out => jsTrim out != ""

/-! ## Sync (`pullIfPossible`, `mergeRemoteBranchIntoCurrent`,
`pushCurrentBranch`) -/

/-- Errors thrown by the pull/merge steps. -/
inductive SyncErr where
  /-- `please resolve conflicts, then rerun <rerunCommandName>` after the
  conflicted paths were written to stderr. -/
  | mergeConflict (rerunCommandName : String)
  /-- the generic failure, carrying the exact thrown message. -/
  | syncFailed (message : String)
deriving Repr, DecidableEq

/-- `pullIfPossible`: pull only when an upstream exists or the remote
branch exists; on failure re-inspect status and either report the
conflicted paths and throw the conflict error, or throw the generic one. -/
def pullIfPossible (env : GitEnv) (remote branch rerunCommandName : String) :
    List GitEffect × Option SyncErr :=
  let hasUpstream := env.upstream.isSome
  let canPull := hasUpstream || remoteBranchExists env remote branch
  if ¬ canPull then ([], none)
  else
    let pullEff := if hasUpstream then GitEffect.pullTracked
                   else GitEffect.pullFrom remote branch
    if env.pullSucceeds then ([pullEff], none)
    else if env.statusAfterFail ≠ [] then
      ([pullEff, .reportConflicts env.statusAfterFail],
       some (.mergeConflict rerunCommandName))
    else
      ([pullEff], some (.syncFailed "git pull failed; please fix and rerun"))

/-- `mergeRemoteBranchIntoCurrent`: fetch then merge `remote/sourceBranch`;
failure handling mirrors `pullIfPossible` with the merge message. -/
def mergeRemoteBranchIntoCurrent (env : GitEnv)
    (remote sourceBranch rerunCommandName : String) :
    List GitEffect × Option SyncErr :=
  if env.fetchSucceeds && env.mergeSucceeds then
    ([.fetch remote sourceBranch, .merge (remote ++ "/" ++ sourceBranch)],
     none)
  else
    let attempted :=
      if env.fetchSucceeds then
        [GitEffect.fetch remote sourceBranch,
         GitEffect.merge (remote ++ "/" ++ sourceBranch)]
      else [GitEffect.fetch remote sourceBranch]
    if env.statusAfterFail ≠ [] then
      (attempted ++ [.reportConflicts env.statusAfterFail],
       some (.mergeConflict rerunCommandName))
    else
      (attempted,
       some (.syncFailed "git merge failed; please fix and rerun"))

/-- `pushCurrentBranch`: push `remote branch`, with `-u` when no upstream
is configured yet. -/
def pushEffect (env : GitEnv) (remote branch : String) : GitEffect :=
  .push remote branch (if env.upstream.isSome then [] else ["-u"])

/-! ## Remote-URL parsing (`src/utils/mr.ts`) -/

/-- Hosting provider tag. -/
inductive Provider where
  | github
  | gitlab
  | unknown
deriving Repr, DecidableEq

/-- `ParsedRemote` from the source. -/
structure ParsedRemote where
  host : String
  ownerPath : String
  repo : String
  provider : Provider
deriving Repr, DecidableEq

/-- A character matched by the regex `.` (anything but a line terminator). -/
def isJsDot (c : Char) : Bool :=
  ¬ (c = '\n' || c = '\r' || c = '\u2028' || c = '\u2029')

/-- The test `/^[^@]+@[^:]+:.+/`: a nonempty `@`-free run, `@`, a nonempty
`:`-free run, `:`, then at least one `.`-matchable character.  Since the
pieces are character classes, the match is against the first `@` and the
first `:` after it. -/
def scpLikeMatch (cs : List Char) : Bool :=
  match splitAtFirst '@' cs with
  | none => false
  | some (a, b) =>
    ¬ a.isEmpty &&
      match splitAtFirst ':' b with
      | none => false
      | some (c, d) =>
        ¬ c.isEmpty &&
          match d with
          | e :: _ => isJsDot e
          | [] => false

/-- The scp-style extraction: `host = slice(atIndex+1, colonIndex)`,
`path = slice(colonIndex+1)` where `atIndex` is the first `@` and
`colonIndex` the first `:` from there. -/
def scpExtract (s : String) : Option (String × String) :=
  match splitAtFirst '@' s.toList with
  | none => none
  | some (_, b) =>
    match splitAtFirst ':' b with
    | none => none
    | some (c, d) => some (String.mk c, String.mk d)

/-- Userinfo stripping: the part of the authority after its last `@`. -/
def afterLastAt (auth : List Char) : List Char :=
  (auth.reverse.takeWhile (fun c => c ≠ '@')).reverse

/-- Modelled from the platform WHATWG `URL` parser (`new URL(...)`), as
used on `ssh://`/`http://`/`https://` remote URLs: `rest` is the input
with its scheme and `//` removed; the authority runs to the first `/`,
`?` or `#`; `url.host` is the authority minus userinfo, lowercased (port
kept); `url.pathname` runs from the `/` to the first `?` or `#` and is
`/` when the path is empty; an empty host makes the constructor throw
(`none`).  Exotic inputs (invalid ports, IPv6 literals, `\`-separators,
`..` path segments) are outside this model. -/
def urlHostPath (rest : String) : Option (String × String) :=
  let cs := rest.toList
  let auth := cs.takeWhile (fun c => c ≠ '/' && c ≠ '?' && c ≠ '#')
  let tail := cs.drop auth.length
  let hostPort := afterLastAt auth
  if hostPort.isEmpty then none
  else
    let pathname :=
      match tail with
      | '/' :: _ => tail.takeWhile (fun c => c ≠ '?' && c ≠ '#')
      | _ => ['/']
    some (String.mk (hostPort.map Char.toLower), String.mk pathname)

/-- The regex replace `/^\/+/ → ""`. -/
def dropLeadingSlashes (s : String) : String :=
  String.mk (s.toList.dropWhile (fun c => c = '/'))

/-- The regex replace `/\.git$/ → ""`. -/
def stripDotGitSuffix (s : String) : String :=
  if listEndsWith s.toList ".git".toList then
    String.mk (s.toList.take (s.toList.length - 4))
  else s

/-- The regex replace `/\/+$/ → ""`. -/
def stripTrailingSlashes (s : String) : String :=
  String.mk ((s.toList.reverse.dropWhile (fun c => c = '/')).reverse)

/-- `normalized.split("/").filter(Boolean)` applied to the raw path. -/
def pathParts (path : String) : List String :=
  ((splitOnChar '/'
      (stripTrailingSlashes (stripDotGitSuffix path)).toList).map
    String.mk).filter (fun s => s ≠ "")

/-- The host/path extraction of `parseRemoteUrl`: scp-style first, then
the three URL schemes (with the pathname's leading slashes removed),
otherwise `null`. -/
def extractHostPath (trimmed : String) : Option (String × String) :=
  if scpLikeMatch trimmed.toList then scpExtract trimmed
  else if strStartsWith trimmed "ssh://" then
    (urlHostPath (strDrop trimmed 6)).map
      (fun hp => (hp.1, dropLeadingSlashes hp.2))
  else if strStartsWith trimmed "http://" then
    (urlHostPath (strDrop trimmed 7)).map
      (fun hp => (hp.1, dropLeadingSlashes hp.2))
  else if strStartsWith trimmed "https://" then
    (urlHostPath (strDrop trimmed 8)).map
      (fun hp => (hp.1, dropLeadingSlashes hp.2))
  else none

/-- `parseRemoteUrl` from `src/utils/mr.ts`. -/
def parseRemoteUrl (remoteUrl : String) : Option ParsedRemote :=
  let trimmed := jsTrim remoteUrl
  if trimmed = "" then none
  else
    match extractHostPath trimmed with
    | none => none
    | some (host, path) =>
      if host = "" || path = "" then none
      else
        let parts := pathParts path
        if parts.length < 2 then none
        else
          some
            { host := host
              ownerPath := strJoinSlash parts.dropLast
              repo := parts.getLastD ""
              provider :=
                if strContains host "github" then Provider.github
                else if strContains host "gitlab" then Provider.gitlab
                else Provider.unknown }

/-! ## Manual MR/PR URL (`buildCreateMrUrl`) -/

/-- The unreserved characters of JS `encodeURIComponent`. -/
def isUriUnreserved (c : Char) : Bool :=
  ('A' ≤ c && c ≤ 'Z') || ('a' ≤ c && c ≤ 'z') || ('0' ≤ c && c ≤ '9') ||
  c = '-' || c = '_' || c = '.' || c = '!' || c = '~' || c = '*' ||
  c = '\'' || c = '(' || c = ')'

/-- Upper-case hex digit of a value below 16. -/
def hexDigitChar (n : Nat) : Char :=
  if n < 10 then Char.ofNat ('0'.toNat + n)
  else Char.ofNat ('A'.toNat + n - 10)

/-- The UTF-8 bytes of a character. -/
def utf8Bytes (c : Char) : List Nat :=
  let n := c.toNat
  if n < 0x80 then [n]
  else if n < 0x800 then [0xC0 + n / 64, 0x80 + n % 64]
  else if n < 0x10000 then
    [0xE0 + n / 4096, 0x80 + (n / 64) % 64, 0x80 + n % 64]
  else
    [0xF0 + n / 262144, 0x80 + (n / 4096) % 64, 0x80 + (n / 64) % 64,
     0x80 + n % 64]

/-- `%XX` encoding of one byte. -/
def percentByte (b : Nat) : List Char :=
  ['%', hexDigitChar (b / 16), hexDigitChar (b % 16)]

/-- JS `encodeURIComponent`. -/
def encodeURIComponent (s : String) : String :=
  String.mk
    (s.toList.foldr
      (fun c acc =>
        (if isUriUnreserved c then [c]
         else (utf8Bytes c).foldr (fun b a => percentByte b ++ a) []) ++ acc)
      [])

/-- `buildCreateMrUrl`: the manual web URL for creating the MR/PR;
`null` for an unknown provider. -/
def buildCreateMrUrl (parsed : ParsedRemote) (sourceBranch targetBranch : String) :
    Option String :=
  let base := "https://" ++ parsed.host ++ "/" ++ parsed.ownerPath ++ "/" ++
    parsed.repo
  let source := encodeURIComponent sourceBranch
  let target := encodeURIComponent targetBranch
  match parsed.provider with
  | .github => some (base ++ "/compare/" ++ target ++ "..." ++ source ++
      "?expand=1")
  | .gitlab => some (base ++ "/-/merge_requests/new?merge_request[source_branch]=" ++
      source ++ "&merge_request[target_branch]=" ++ target)
  | .unknown => none

/-! ## MR/PR creation (`createMergeRequest`) -/

/-- Result of `runCommandCapture` for one provider CLI invocation. -/
structure RunResult where
  code : Int
  stdout : String
  stderr : String
deriving Repr, DecidableEq

/-- Availability (`which`) and outcomes of the two provider CLIs. -/
structure MrEnv where
  glabExists : Bool
  ghExists : Bool
  glabRun : RunResult
  ghRun : RunResult
deriving Repr, DecidableEq

/-- `commandExists` for the candidate tools. -/
def toolExists (env : MrEnv) (tool : String) : Bool :=
  if tool = "glab" then env.glabExists
  else if tool = "gh" then env.ghExists
  else false

/-- The captured run of a candidate tool. -/
def toolRun (env : MrEnv) (tool : String) : RunResult :=
  if tool = "glab" then env.glabRun else env.ghRun

/-- The message thrown when `glab mr create` exits non-zero:
`failed to create merge request via glab.` plus `stderr || stdout || ""`,
trimmed. -/
def glabFailMsg (r : RunResult) : String :=
  jsTrim ("failed to create merge request via glab.\n" ++
    (if r.stderr ≠ "" then r.stderr else if r.stdout ≠ "" then r.stdout
     else ""))

/-- The message thrown when `gh pr create` exits non-zero. -/
def ghFailMsg (r : RunResult) : String :=
  jsTrim ("failed to create pull request via gh.\n" ++
    (if r.stderr ≠ "" then r.stderr else if r.stdout ≠ "" then r.stdout
     else ""))

/-- `toolFailMsg env tool`: the thrown message for the given tool — built
from that tool's captured output only (no manual URL). -/
def toolFailMsg (env : MrEnv) (tool : String) : String :=
  if tool = "glab" then glabFailMsg env.glabRun else ghFailMsg env.ghRun

/-- The candidate order: GitLab remotes try `glab` then `gh`, GitHub
remotes `gh` then `glab`, everything else (including an unparsed remote)
`glab` then `gh`. -/
def candidatesFor (parsedRemote : Option ParsedRemote) : List String :=
  match parsedRemote with
  | some p =>
    if p.provider = Provider.gitlab then ["glab", "gh"]
    else if p.provider = Provider.github then ["gh", "glab"]
    else ["glab", "gh"]
  | none => ["glab", "gh"]

/-- `mrUrl` as computed in `createMergeRequest`. -/
def mrUrlOf (parsedRemote : Option ParsedRemote)
    (sourceBranch targetBranch : String) : Option String :=
  match parsedRemote with
  | some p => buildCreateMrUrl p sourceBranch targetBranch
  | none => none

/-- The first three lines of the no-tool hint. -/
def mrBaseHint : String :=
  strJoinNl
    ["no supported MR/PR tool found (install one):",
     "- GitLab: glab (https://github.com/profclems/glab)",
     "- GitHub: gh (https://github.com/cli/cli)"]

/-- The no-tool hint: the three fixed lines, plus `manual link: <url>`
when `mrUrl` is truthy (`filter(Boolean)` drops the `null` entry). -/
def mrHint (mrUrl : Option String) : String :=
  strJoinNl
    (["no supported MR/PR tool found (install one):",
      "- GitLab: glab (https://github.com/profclems/glab)",
      "- GitHub: gh (https://github.com/cli/cli)"] ++
     (if jsTruthy mrUrl then ["manual link: " ++ mrUrl.getD ""] else []))

/-- One iteration of the candidate loop for an available tool: run it,
return on exit 0, otherwise throw that tool's failure message. -/
def runMrTool (env : MrEnv) (tool : String) :
    List GitEffect × Except String Unit :=
  if (toolRun env tool).code = 0 then ([.runTool tool], .ok ())
  else ([.runTool tool], .error (toolFailMsg env tool))

/-- The candidate loop of `createMergeRequest`: skip tools that are not on
the path; the first available supported tool is run and the loop never
continues past it; when no tool ran, throw the hint. -/
def createMrLoop (env : MrEnv) (mrUrl : Option String) :
    List String → List GitEffect × Except String Unit
  | [] => ([], .error (mrHint mrUrl))
  | t :: rest =>
    if ¬ toolExists env t then createMrLoop env mrUrl rest
    else if t = "glab" then runMrTool env "glab"
    else if t = "gh" then runMrTool env "gh"
    else createMrLoop env mrUrl rest

/-- `createMergeRequest`. -/
def createMergeRequest (env : MrEnv) (parsedRemote : Option ParsedRemote)
    (sourceBranch targetBranch : String) :
    List GitEffect × Except String Unit :=
  createMrLoop env (mrUrlOf parsedRemote sourceBranch targetBranch)
    (candidatesFor parsedRemote)

/-! ## The promote-to-main flow (`src/core/toMain.ts`) -/

/-- The options of `toMain` (the working-directory override only selects
the repository and is part of the environment here). -/
structure ToMainOptions where
  branch : Option String
  commitMessage : Option String
  commitType : Option String

/-- `options.branch?.trim() ? options.branch.trim() : "main"`. -/
def targetBranchOf (branch? : Option String) : String :=
  let t := jsTrim (branch?.getD "")
  if t ≠ "" then t else "main"

/-- The failures of `toMain`, one per throw site / propagated error. -/
inductive ToMainErr where
  | notARepo
  | detachedHead
  /-- `cannot run to-main on <target> branch; checkout another branch
  first` -/
  | invalidSourceBranch (target : String)
  | commitErr (e : CommitErr)
  | remoteErr (e : RemoteErr)
  | pullErr (e : SyncErr)
  | pushFailed
  | mrFailed (message : String)
deriving Repr, DecidableEq

/-- `toMain`: repo/branch guards, commit-if-dirty, remote resolution,
pull, push, then MR/PR creation. -/
def toMain (env : GitEnv) (tty : Tty) (mrEnv : MrEnv)
    (opts : ToMainOptions) : List GitEffect × Option ToMainErr :=
  let targetBranch := targetBranchOf opts.branch
  if ¬ env.isRepo then ([], some .notARepo)
  else if env.currentBranch = "" || env.currentBranch = "HEAD" then
    ([], some .detachedHead)
  else if env.currentBranch = targetBranch then
    ([], some (.invalidSourceBranch targetBranch))
  else
    match commitIfDirty env tty
        ⟨opts.commitMessage, opts.commitType⟩ with
    | (tr, some e) => (tr, some (.commitErr e))
    | (tr, none) =>
      match getPreferredRemote env with
      | .error e => (tr, some (.remoteErr e))
      | .ok remote =>
        match pullIfPossible env remote env.currentBranch "to-main" with
        | (tr2, some e) => (tr ++ tr2, some (.pullErr e))
        | (tr2, none) =>
          let tr3 := tr ++ tr2 ++ [pushEffect env remote env.currentBranch]
          if ¬ env.pushSucceeds then (tr3, some .pushFailed)
          else
            let parsed := parseRemoteUrl (jsTrim (env.remoteUrl remote))
            match createMergeRequest mrEnv parsed env.currentBranch
                targetBranch with
            | (tr4, .error msg) => (tr3 ++ tr4, some (.mrFailed msg))
            | (tr4, .ok _) => (tr3 ++ tr4, none)

/-! ### Lemmas about trimming -/

theorem dropWhile_dropWhile (p : α → Bool) (l : List α) :
    (l.dropWhile p).dropWhile p = l.dropWhile p := by
  induction l with
  | nil => rfl
  | cons a t ih =>
    by_cases h : p a
    · simp [List.dropWhile_cons_of_pos h, ih]
    · simp [List.dropWhile_cons_of_neg h,
        List.dropWhile_cons_of_neg h]

theorem dropWhile_head_false (p : α → Bool) {l : List α} {a : α} {t : List α}
    (h : l.dropWhile p = a :: t) : p a = false := by
  induction l with
  | nil => simp [List.dropWhile] at h
  | cons b l' ih =>
    by_cases hb : p b
    · exact ih (by simpa [List.dropWhile_cons_of_pos hb] using h)
    · rw [List.dropWhile_cons_of_neg hb] at h
      cases h
      simpa using hb

theorem exists_prefix_dropWhile (p : α → Bool) (l : List α) :
    ∃ t, l = t ++ l.dropWhile p := by
  induction l with
  | nil => exact ⟨[], rfl⟩
  | cons a l' ih =>
    by_cases h : p a
    · obtain ⟨t, ht⟩ := ih
      exact ⟨a :: t, by simp [List.dropWhile_cons_of_pos h, ← ht]⟩
    · exact ⟨[], by simp [List.dropWhile_cons_of_neg h]⟩

/-- Trimming is idempotent. -/
theorem jsTrimList_idem (l : List Char) :
    jsTrimList (jsTrimList l) = jsTrimList l := by
  unfold jsTrimList
  set A := l.dropWhile isJsSpace with hA
  set B := A.reverse.dropWhile isJsSpace with hB
  -- Step 1: `B.reverse` is already left-trimmed.
  have h1 : B.reverse.dropWhile isJsSpace = B.reverse := by
    obtain ⟨t, ht⟩ := exists_prefix_dropWhile isJsSpace A.reverse
    have hrev : A = B.reverse ++ t.reverse := by
      have := congrArg List.reverse ht
      simpa [List.reverse_append] using this
    cases hBr : B.reverse with
    | nil => simp
    | cons a tl =>
      have hAeq : l.dropWhile isJsSpace = a :: (tl ++ t.reverse) := by
        rw [← hA, hrev, hBr]; simp
      have hfalse : isJsSpace a = false := dropWhile_head_false isJsSpace hAeq
      rw [List.dropWhile_cons_of_neg (by simp [hfalse])]
  rw [h1]
  simp only [List.reverse_reverse]
  rw [dropWhile_dropWhile]

theorem jsTrim_idem (s : String) : jsTrim (jsTrim s) = jsTrim s := by
  unfold jsTrim
  rw [show (String.mk (jsTrimList s.toList)).toList = jsTrimList s.toList from rfl]
  rw [jsTrimList_idem]

/-- `hasConventionalTag` only looks at the trimmed message. -/
theorem hasConventionalTag_jsTrim (s : String) :
    hasConventionalTag (jsTrim s) = hasConventionalTag s := by
  unfold hasConventionalTag
  rw [jsTrim_idem]

/-- A message matching the conventional pattern is nonempty after trimming. -/
theorem hasConventionalTag_trim_ne_empty {s : String}
    (h : hasConventionalTag s = true) : jsTrim s ≠ "" := by
  intro he
  rw [← hasConventionalTag_jsTrim, he] at h
  simp [hasConventionalTag, jsTrim, jsTrimList, matchConvCore] at h


/-! ### Helper lemmas about the commit preparer -/

/-- Recognized commit types are trim-stable. -/
theorem recognized_trim_stable {t : String}
    (h : isRecognizedCommitType t = true) : jsTrim t = t := by
  have hmem : t ∈ commitTypeValues := by
    simp only [isRecognizedCommitType, Bool.and_eq_true] at h
    exact List.mem_of_elem_eq_true h.2
  fin_cases hmem <;> decide

/-- Recognized commit types are nonempty. -/
theorem recognized_ne_empty {t : String}
    (h : isRecognizedCommitType t = true) : t ≠ "" := by
  simp only [isRecognizedCommitType, Bool.and_eq_true, decide_eq_true_eq] at h
  exact h.1

/-- With a truthy message that already carries the conventional marker,
`resolveMessage` keeps message and type unchanged (no prompt fires and
the non-interactive guard passes). -/
theorem resolveMessage_of_tag (tty : Tty) (m : String) (t0 : Option String)
    (hm : m ≠ "") (htag : hasConventionalTag m = true) :
    resolveMessage tty (some m) t0 = .ok (m, t0) := by
  have htruthy : jsTruthy (some m) = true := by simp [jsTruthy, hm]
  cases t0 with
  | some t => simp [resolveMessage, htruthy]
  | none =>
    by_cases htty : tty.isTTY <;>
      simp [resolveMessage, htruthy, htag, htty]

/-- Whatever error `commitIfDirty` throws, no commit effect is in its
trace (errors are thrown strictly before `git.commit`). -/
theorem commitIfDirty_error_no_commit (env : GitEnv) (tty : Tty)
    (opts : CommitOptions) (tr : List GitEffect) (e : CommitErr)
    (h : commitIfDirty env tty opts = (tr, some e)) :
    ∀ fm, GitEffect.commit fm ∉ tr := by
  intro fm
  unfold commitIfDirty at h
  repeat' split at h
  all_goals
    first
      | (injection h with htr he
         exact Option.noConfusion he)
      | (injection h with htr he
         subst htr
         simp)

/-! ### Concrete environments used by witnesses and counterexamples -/

/-- A dirty repository on branch `feat-x` with one staged file. -/
def envDirty : GitEnv where
  isRepo := true
  currentBranch := "feat-x"
  statusFiles := [⟨"a.txt", some "M", some " "⟩]
  stagedDiff := "a.txt\n"
  upstream := none
  remotes := ["origin"]
  remoteUrl := fun _ => "git@github.com:acme/widget.git"
  lsRemote := fun _ _ => some ""
  pullSucceeds := true
  fetchSucceeds := true
  mergeSucceeds := true
  pushSucceeds := true
  statusAfterFail := []

/-- A non-interactive terminal. -/
def ttyOff : Tty where
  isTTY := false
  subjectAnswer := ""
  typeAnswer := ""
  scopeAnswer := ""

/-- An interactive terminal with scripted prompt answers. -/
def ttyOn : Tty where
  isTTY := true
  subjectAnswer := "add endpoint"
  typeAnswer := "feat"
  scopeAnswer := "api"

/-! ### C1 -/

/-- Claim C1, counterexample: the supplied message `"feat: x "` (trailing
blank) matches the conventional-prefix pattern, yet the committed message
is the trimmed `"feat: x"`, not the supplied message verbatim; moreover,
when an unrecognized commit type is also supplied, the prefixed message
is not committed at all (the unknown-type error fires first). -/
theorem c1_counterexample :
    commitIfDirty envDirty ttyOff ⟨some "feat: x ", none⟩ =
      ([.addAll, .commit "feat: x"], none) ∧
    hasConventionalTag "feat: x " = true ∧
    ("feat: x" : String) ≠ "feat: x " ∧
    commitIfDirty envDirty ttyOff ⟨some "feat: x", some "bogus"⟩ =
      ([.addAll], some (.unknownCommitType "bogus")) := by
  refine ⟨by decide, by decide, by decide, by decide⟩

/-- Claim C1 (amended): for every supplied commit message matching the
conventional-prefix pattern `^[a-z]+(\(scope\))?!?:\s+` after trimming,
and any supplied commit type that is absent, empty or recognized, the
Commit Preparer commits the **trimmed** supplied message verbatim — no
type prefix or scope is ever prepended, so a prefixed message is never
double-prefixed. -/
theorem c1_prefixed_message_never_reprefixed
    (env : GitEnv) (tty : Tty) (msg : String) (ct t0 : Option String)
    (hdirty : env.statusFiles ≠ [])
    (hstaged : jsTrim env.stagedDiff ≠ "")
    (htag : hasConventionalTag msg = true)
    (hct : checkCommitType ct = .ok t0) :
    commitIfDirty env tty ⟨some msg, ct⟩ =
      ([.addAll, .commit (jsTrim msg)], none) := by
  have hne : jsTrim msg ≠ "" := hasConventionalTag_trim_ne_empty htag
  have htag2 : hasConventionalTag (jsTrim msg) = true := by
    rw [hasConventionalTag_jsTrim]; exact htag
  have hres := resolveMessage_of_tag tty (jsTrim msg) t0 hne htag2
  have hempty : env.statusFiles.isEmpty = false := by
    simp [List.isEmpty_iff, hdirty]
  simp [commitIfDirty, hempty, hstaged, hct, hres, composeFinalMessage,
    htag2]

/-- Witness for C1 at a concrete prefixed message. -/
theorem c1_prefixed_message_never_reprefixed_witness :
    commitIfDirty envDirty ttyOff ⟨some "fix: typo", none⟩ =
      ([.addAll, .commit "fix: typo"], none) := by
  have h := c1_prefixed_message_never_reprefixed envDirty ttyOff
    "fix: typo" none none (by decide) (by decide) (by decide) rfl
  simpa using h

/-! ### C2 -/

/-- Claim C2: with a recognized type, a subject free of a conventional
prefix (trimmed, nonempty) and a scope free of whitespace and
parentheses, the composed commit message is exactly `type(scope): subject`
for a nonempty scope and exactly `type: subject` for an empty scope; and
an interactive `commitIfDirty` run with those prompt answers commits
exactly that composed message. -/
theorem c2_composed_message_shape
    (env : GitEnv) (tty : Tty) (ty scope subject : String)
    (hty : isRecognizedCommitType ty = true)
    (hsubj_tag : hasConventionalTag subject = false)
    (hsubj_trim : jsTrim subject = subject)
    (hsubj_ne : subject ≠ "")
    (hscope : ∀ c ∈ scope.toList, isJsSpace c = false ∧ c ≠ '(' ∧ c ≠ ')')
    (hdirty : env.statusFiles ≠ [])
    (hstaged : jsTrim env.stagedDiff ≠ "")
    (htty : tty.isTTY = true)
    (hsub : tty.subjectAnswer = subject)
    (hsc : tty.scopeAnswer = scope) :
    (scope ≠ "" →
      composeFinalMessage (some ty) scope subject =
        ty ++ "(" ++ scope ++ "): " ++ subject) ∧
    (scope = "" →
      composeFinalMessage (some ty) scope subject = ty ++ ": " ++ subject) ∧
    commitIfDirty env tty ⟨none, some ty⟩ =
      ([.addAll, .commit (composeFinalMessage (some ty) scope subject)],
       none) := by
  have htyne : ty ≠ "" := recognized_ne_empty hty
  have htytrim : jsTrim ty = ty := recognized_trim_stable hty
  have htruthyTy : jsTruthy (some ty) = true := by simp [jsTruthy, htyne]
  refine ⟨?_, ?_, ?_⟩
  · intro hne
    simp [composeFinalMessage, hsubj_tag, htruthyTy, hne, hsubj_trim]
  · intro heq
    simp [composeFinalMessage, hsubj_tag, htruthyTy, heq, hsubj_trim]
  · have hempty : env.statusFiles.isEmpty = false := by
      simp [List.isEmpty_iff, hdirty]
    have hct : checkCommitType (some ty) = .ok (some ty) := by
      simp [checkCommitType, htyne, htytrim, hty]
    have hres : resolveMessage tty none (some ty) =
        .ok (tty.subjectAnswer, some ty) := by
      simp [resolveMessage, jsTruthy, htty]
    simp [commitIfDirty, hempty, hstaged, hct, hres, jsTruthy, htty,
      hsub, hsc, hsubj_ne, hsubj_tag, htyne]

/-- Witness for C2 at `feat(core): add api` and `feat: add api`. -/
theorem c2_composed_message_shape_witness :
    composeFinalMessage (some "feat") "core" "add api" =
      "feat(core): add api" ∧
    composeFinalMessage (some "feat") "" "add api" = "feat: add api" := by
  have h1 := c2_composed_message_shape envDirty
    ⟨true, "add api", "feat", "core"⟩ "feat" "core" "add api"
    (by decide) (by decide) (by decide) (by decide) (by decide)
    (by decide) (by decide) (by decide) rfl rfl
  have h2 := c2_composed_message_shape envDirty
    ⟨true, "add api", "feat", ""⟩ "feat" "" "add api"
    (by decide) (by decide) (by decide) (by decide) (by decide)
    (by decide) (by decide) (by decide) rfl rfl
  exact ⟨by simpa using h1.1 (by decide), by simpa using h2.2.1 rfl⟩

/-! ### C7 -/

/-- Claim C7: in a non-interactive run on a dirty tree with a non-empty
staged diff (and a supplied type, if any, recognized): with no supplied
message it fails with the missing-message error; with a supplied
unprefixed message and no type it fails with the missing-type error; the
spec groups both as `MissingCommitMetadata`; and no error case ever
creates a commit. -/
theorem c7_non_interactive_missing_metadata
    (env : GitEnv) (tty : Tty) (ct : Option String)
    (hdirty : env.statusFiles ≠ [])
    (hstaged : jsTrim env.stagedDiff ≠ "")
    (htty : tty.isTTY = false) :
    (∀ t0, checkCommitType ct = .ok t0 →
      commitIfDirty env tty ⟨none, ct⟩ =
        ([.addAll], some .missingMessage)) ∧
    (∀ m, checkCommitType ct = .ok none → jsTrim m ≠ "" →
      hasConventionalTag m = false →
      commitIfDirty env tty ⟨some m, ct⟩ =
        ([.addAll], some .missingTypeInfo)) ∧
    isMissingCommitMetadata .missingMessage = true ∧
    isMissingCommitMetadata .missingTypeInfo = true ∧
    (∀ msg? e tr, commitIfDirty env tty ⟨msg?, ct⟩ = (tr, some e) →
      ∀ fm, GitEffect.commit fm ∉ tr) := by
  have hempty : env.statusFiles.isEmpty = false := by
    simp [List.isEmpty_iff, hdirty]
  refine ⟨?_, ?_, rfl, rfl, ?_⟩
  · intro t0 hct
    have hres : resolveMessage tty none t0 = .error .missingMessage := by
      cases t0 <;> simp [resolveMessage, jsTruthy, htty]
    simp [commitIfDirty, hempty, hstaged, hct, hres]
  · intro m hct hm htag
    have htag2 : hasConventionalTag (jsTrim m) = false := by
      rw [hasConventionalTag_jsTrim]; exact htag
    have hres : resolveMessage tty (some (jsTrim m)) none =
        .error .missingTypeInfo := by
      simp [resolveMessage, jsTruthy, htty, hm, htag2]
    simp [commitIfDirty, hempty, hstaged, hct, hres]
  · intro msg? e tr h fm
    exact commitIfDirty_error_no_commit env tty ⟨msg?, ct⟩ tr e h fm

/-- Witness for C7: missing message and missing type at concrete inputs. -/
theorem c7_non_interactive_missing_metadata_witness :
    commitIfDirty envDirty ttyOff ⟨none, none⟩ =
      ([.addAll], some .missingMessage) ∧
    commitIfDirty envDirty ttyOff ⟨some "update stuff", none⟩ =
      ([.addAll], some .missingTypeInfo) := by
  have h := c7_non_interactive_missing_metadata envDirty ttyOff none
    (by decide) (by decide) (by decide)
  exact ⟨h.1 none rfl,
    h.2.1 "update stuff" rfl (by decide) (by decide)⟩

/-! ### C3 -/

/-- Claim C3: the preferred remote follows the exact priority
upstream-embedded remote → `origin` → first remote in listing order; with
upstream `origin/feat-x` the result is `origin` whatever the remote
listing; with zero remotes the operation fails with the
no-remote-configured error and that is its only failure.  The
well-formedness hypothesis records the git invariant that `@{u}` cannot
resolve in a repository with zero remotes (the source's `getUpstreamRef`
catches that failure and yields `null`). -/
theorem c3_preferred_remote_priority (env : GitEnv)
    (hwf : env.remotes = [] → env.upstream.bind getRemoteFromUpstream = none) :
    (∀ u r, env.upstream = some u → getRemoteFromUpstream u = some r →
      getPreferredRemote env = .ok r) ∧
    (env.upstream.bind getRemoteFromUpstream = none →
      env.remotes.contains "origin" = true →
      getPreferredRemote env = .ok "origin") ∧
    (env.upstream.bind getRemoteFromUpstream = none →
      env.remotes.contains "origin" = false →
      ∀ n ns, env.remotes = n :: ns → getPreferredRemote env = .ok n) ∧
    (env.upstream = some "origin/feat-x" →
      getPreferredRemote env = .ok "origin") ∧
    (env.remotes = [] →
      getPreferredRemote env = .error RemoteErr.noRemoteConfigured) ∧
    (∀ e, getPreferredRemote env = .error e →
      env.remotes = [] ∧ e = RemoteErr.noRemoteConfigured) := by
  have hup : ∀ u r, env.upstream = some u → getRemoteFromUpstream u = some r →
      getPreferredRemote env = .ok r := by
    intro u r hu hr
    simp [getPreferredRemote, hu, hr]
  refine ⟨hup, ?_, ?_, ?_, ?_, ?_⟩
  · intro hnone horigin
    have ho : ("origin" : String) ∈ env.remotes := by simpa using horigin
    cases hu : env.upstream with
    | none => simp [getPreferredRemote, preferredFallback, hu, ho]
    | some u =>
      rw [hu] at hnone
      simp at hnone
      simp [getPreferredRemote, hu, hnone, preferredFallback, ho]
  · intro hnone horigin n ns hr
    have ho : ("origin" : String) ∉ env.remotes := by simpa using horigin
    rw [hr] at ho
    cases hu : env.upstream with
    | none => simp [getPreferredRemote, preferredFallback, hu, hr, ho]
    | some u =>
      rw [hu] at hnone
      simp at hnone
      simp [getPreferredRemote, hu, hnone, preferredFallback, hr, ho]
  · intro hu
    exact hup "origin/feat-x" "origin" hu (by decide)
  · intro hr
    have hnone := hwf hr
    cases hu : env.upstream with
    | none => simp [getPreferredRemote, preferredFallback, hu, hr]
    | some u =>
      rw [hu] at hnone
      simp at hnone
      simp [getPreferredRemote, hu, hnone, preferredFallback, hr]
  · intro e he
    cases e
    refine ⟨?_, rfl⟩
    cases hrem : env.remotes with
    | nil => rfl
    | cons n ns =>
      exfalso
      by_cases ho : ("origin" : String) ∈ env.remotes <;> rw [hrem] at ho
      · cases hu : env.upstream with
        | none =>
          simp [getPreferredRemote, preferredFallback, hu, hrem, ho] at he
        | some u =>
          cases hr : getRemoteFromUpstream u with
          | some r => simp [getPreferredRemote, hu, hr] at he
          | none =>
            simp [getPreferredRemote, preferredFallback, hu, hr, hrem, ho]
              at he
      · cases hu : env.upstream with
        | none =>
          simp [getPreferredRemote, preferredFallback, hu, hrem, ho] at he
        | some u =>
          cases hr : getRemoteFromUpstream u with
          | some r => simp [getPreferredRemote, hu, hr] at he
          | none =>
            simp [getPreferredRemote, preferredFallback, hu, hr, hrem, ho]
              at he

/-- A repository with upstream `origin/feat-x` and remotes listed as
`upstream` before `origin`. -/
def envUpstreamFirst : GitEnv where
  isRepo := true
  currentBranch := "feat-x"
  statusFiles := []
  stagedDiff := ""
  upstream := some "origin/feat-x"
  remotes := ["upstream", "origin"]
  remoteUrl := fun _ => ""
  lsRemote := fun _ _ => some ""
  pullSucceeds := true
  fetchSucceeds := true
  mergeSucceeds := true
  pushSucceeds := true
  statusAfterFail := []

/-- Witness for C3: upstream `origin/feat-x` wins over the listing order
`["upstream", "origin"]`. -/
theorem c3_preferred_remote_priority_witness :
    getPreferredRemote envUpstreamFirst = .ok "origin" :=
  (c3_preferred_remote_priority envUpstreamFirst (by decide)).2.2.2.1 rfl

/-! ### C9 -/

/-- Claim C9, counterexample: a remote-heads listing that succeeds with
the non-empty (whitespace-only) output `" "` still yields `false`, so
"returns true exactly when the listing succeeds with non-empty output" is
false as stated. -/
theorem c9_counterexample :
    remoteBranchExists
      { envDirty with lsRemote := fun _ _ => some " " } "origin" "main"
      = false ∧
    ({ envDirty with lsRemote := fun _ _ => some " " } : GitEnv).lsRemote
      "origin" "main" = some " " ∧
    (" " : String) ≠ "" := by
  exact ⟨by decide, rfl, by decide⟩

/-- Claim C9 (amended): every failure of the remote-heads listing makes
`remoteBranchExists` return `false` (the error is never propagated — the
function is total), and it returns `true` exactly when the listing
succeeds with output that is non-empty **after trimming**. -/
theorem c9_remote_branch_exists_conservative (env : GitEnv)
    (remote branch : String) :
    (env.lsRemote remote branch = none →
      remoteBranchExists env remote branch = false) ∧
    (remoteBranchExists env remote branch = true ↔
      ∃ out, env.lsRemote remote branch = some out ∧ jsTrim out ≠ "") := by
  constructor
  · intro h
    simp [remoteBranchExists, h]
  · cases h : env.lsRemote remote branch with
    | none => simp [remoteBranchExists, h]
    | some out => simp [remoteBranchExists, h]

/-- Witness for C9: a failing listing yields `false`; a listing returning
a ref line yields `true`. -/
theorem c9_remote_branch_exists_conservative_witness :
    remoteBranchExists { envDirty with lsRemote := fun _ _ => none }
      "origin" "main" = false ∧
    remoteBranchExists
      { envDirty with
        lsRemote := fun _ _ => some "0123 refs/heads/main\n" }
      "origin" "main" = true := by
  constructor
  · exact (c9_remote_branch_exists_conservative
      { envDirty with lsRemote := fun _ _ => none } "origin" "main").1 rfl
  · exact (c9_remote_branch_exists_conservative
      { envDirty with lsRemote := fun _ _ => some "0123 refs/heads/main\n" }
      "origin" "main").2.mpr ⟨"0123 refs/heads/main\n", rfl, by decide⟩

/-! ### C8 -/

/-- Claim C8: when a pull (resp. fetch+merge) fails and the re-inspected
status shows conflicted paths, the step reports exactly that full set of
paths and fails with the merge-conflict error instructing a rerun; when
the failure leaves no conflicted paths it fails with the generic message
instead; and neither step ever commits a resolution (no commit effect
appears in any trace). -/
theorem c8_conflicts_reported_not_resolved
    (env : GitEnv) (remote branch src rerun : String) :
    (env.pullSucceeds = false →
      (env.upstream.isSome || remoteBranchExists env remote branch) = true →
      ((env.statusAfterFail ≠ [] →
        (pullIfPossible env remote branch rerun).2 =
          some (.mergeConflict rerun) ∧
        GitEffect.reportConflicts env.statusAfterFail ∈
          (pullIfPossible env remote branch rerun).1) ∧
       (env.statusAfterFail = [] →
        (pullIfPossible env remote branch rerun).2 =
          some (.syncFailed "git pull failed; please fix and rerun")))) ∧
    ((env.fetchSucceeds && env.mergeSucceeds) = false →
      ((env.statusAfterFail ≠ [] →
        (mergeRemoteBranchIntoCurrent env remote src rerun).2 =
          some (.mergeConflict rerun) ∧
        GitEffect.reportConflicts env.statusAfterFail ∈
          (mergeRemoteBranchIntoCurrent env remote src rerun).1) ∧
       (env.statusAfterFail = [] →
        (mergeRemoteBranchIntoCurrent env remote src rerun).2 =
          some (.syncFailed "git merge failed; please fix and rerun")))) ∧
    (∀ fm, GitEffect.commit fm ∉ (pullIfPossible env remote branch rerun).1) ∧
    (∀ fm, GitEffect.commit fm ∉
      (mergeRemoteBranchIntoCurrent env remote src rerun).1) := by
  refine ⟨?_, ?_, ?_, ?_⟩
  · intro hpull hcan
    constructor
    · intro hconf
      simp [pullIfPossible, hcan, hpull, hconf]
    · intro hnoconf
      simp [pullIfPossible, hcan, hpull, hnoconf]
  · intro hfail
    constructor
    · intro hconf
      by_cases hf : env.fetchSucceeds
      · simp only [hf, Bool.true_and] at hfail
        simp [mergeRemoteBranchIntoCurrent, hf, hfail, hconf]
      · simp [mergeRemoteBranchIntoCurrent, hf, hconf]
    · intro hnoconf
      by_cases hf : env.fetchSucceeds
      · simp only [hf, Bool.true_and] at hfail
        simp [mergeRemoteBranchIntoCurrent, hf, hfail, hnoconf]
      · simp [mergeRemoteBranchIntoCurrent, hf, hnoconf]
  · intro fm
    simp only [pullIfPossible]
    repeat' split
    all_goals simp
  · intro fm
    simp only [mergeRemoteBranchIntoCurrent]
    repeat' split
    all_goals simp

/-- An environment whose pull and merge fail leaving two conflicted
paths. -/
def envConflict : GitEnv where
  isRepo := true
  currentBranch := "feat-x"
  statusFiles := []
  stagedDiff := ""
  upstream := some "origin/feat-x"
  remotes := ["origin"]
  remoteUrl := fun _ => ""
  lsRemote := fun _ _ => some ""
  pullSucceeds := false
  fetchSucceeds := true
  mergeSucceeds := false
  pushSucceeds := true
  statusAfterFail := ["src/a.ts", "src/b.ts"]

/-- Witness for C8 at a conflicted pull and a conflicted merge. -/
theorem c8_conflicts_reported_not_resolved_witness :
    (pullIfPossible envConflict "origin" "feat-x" "to-main").2 =
      some (.mergeConflict "to-main") ∧
    GitEffect.reportConflicts ["src/a.ts", "src/b.ts"] ∈
      (pullIfPossible envConflict "origin" "feat-x" "to-main").1 ∧
    (mergeRemoteBranchIntoCurrent envConflict "origin" "feat-x"
      "to-test").2 = some (.mergeConflict "to-test") := by
  have h := c8_conflicts_reported_not_resolved envConflict "origin" "feat-x"
    "feat-x" "to-main"
  have h2 := c8_conflicts_reported_not_resolved envConflict "origin" "feat-x"
    "feat-x" "to-test"
  refine ⟨(h.1 rfl (by decide)).1 (by decide) |>.1,
    ?_,
    (h2.2.1 (by decide)).1 (by decide) |>.1⟩
  have hm := (h.1 rfl (by decide)).1 (by decide) |>.2
  simpa using hm

/-! ### C4 -/

/-- Claim C4: running the promote-to-main flow in a git repository whose
current (non-detached) branch equals the configured target branch fails
with the invalid-source-branch error, with an empty effect trace — no
staging, committing, pulling or pushing happens before the guard. -/
theorem c4_to_main_guard_no_side_effects
    (env : GitEnv) (tty : Tty) (mrEnv : MrEnv) (opts : ToMainOptions)
    (hrepo : env.isRepo = true)
    (hname : env.currentBranch ≠ "")
    (hhead : env.currentBranch ≠ "HEAD")
    (heq : env.currentBranch = targetBranchOf opts.branch) :
    toMain env tty mrEnv opts =
      ([], some (.invalidSourceBranch (targetBranchOf opts.branch))) := by
  rw [heq] at hname hhead
  simp [toMain, hrepo, hname, hhead, heq]

/-- Witness for C4: on `main` with the default target branch. -/
theorem c4_to_main_guard_no_side_effects_witness :
    toMain { envDirty with currentBranch := "main" } ttyOff
      ⟨false, false, ⟨1, "", ""⟩, ⟨1, "", ""⟩⟩ ⟨none, none, none⟩ =
      ([], some (.invalidSourceBranch "main")) := by
  have h := c4_to_main_guard_no_side_effects
    { envDirty with currentBranch := "main" } ttyOff
    ⟨false, false, ⟨1, "", ""⟩, ⟨1, "", ""⟩⟩ ⟨none, none, none⟩
    rfl (by decide) (by decide) (by decide)
  simpa using h

/-! ### C5 -/

/-- Claim C5: the scp-style GitHub example and the nested-group GitLab
example parse to the documented components; every input that is neither
scp-style nor `ssh://`/`http://`/`https://` yields `null`; and every
input whose extracted path has fewer than two nonempty segments yields
`null`. -/
theorem c5_parse_remote_url_shapes :
    parseRemoteUrl "git@github.com:acme/widget.git" =
      some ⟨"github.com", "acme", "widget", Provider.github⟩ ∧
    parseRemoteUrl "https://gitlab.example.com/group/sub/project.git" =
      some ⟨"gitlab.example.com", "group/sub", "project",
        Provider.gitlab⟩ ∧
    (∀ s, scpLikeMatch (jsTrim s).toList = false →
      strStartsWith (jsTrim s) "ssh://" = false →
      strStartsWith (jsTrim s) "http://" = false →
      strStartsWith (jsTrim s) "https://" = false →
      parseRemoteUrl s = none) ∧
    (∀ s host path, extractHostPath (jsTrim s) = some (host, path) →
      (pathParts path).length < 2 → parseRemoteUrl s = none) := by
  refine ⟨by decide, by decide, ?_, ?_⟩
  · intro s h1 h2 h3 h4
    have h1' : scpLikeMatch (jsTrim s).data = false := h1
    have hext : extractHostPath (jsTrim s) = none := by
      simp [extractHostPath, h1', h2, h3, h4]
    by_cases he : jsTrim s = "" <;> simp [parseRemoteUrl, he, hext]
  · intro s host path h1 h2
    have he : jsTrim s ≠ "" := by
      intro hcon
      have hnone : extractHostPath "" = none := by decide
      rw [hcon, hnone] at h1
      exact Option.noConfusion h1
    simp only [parseRemoteUrl]
    rw [if_neg he, h1]
    by_cases hhp : (host = "" || path = "") = true
    · simp only [hhp, if_true]
    · simp only [hhp, if_false, Bool.false_eq_true]
      rw [if_pos h2]

/-- Witness for C5: an unsupported input and a one-segment path both
yield `null`. -/
theorem c5_parse_remote_url_shapes_witness :
    parseRemoteUrl "not a url" = none ∧
    parseRemoteUrl "https://github.com/onlyrepo.git" = none := by
  constructor
  · exact c5_parse_remote_url_shapes.2.2.1 "not a url"
      (by decide) (by decide) (by decide) (by decide)
  · exact c5_parse_remote_url_shapes.2.2.2 "https://github.com/onlyrepo.git"
      "github.com" "onlyrepo.git" (by decide) (by decide)

/-! ### C6 -/

/-- Left factors of nonempty strings keep appends nonempty. -/
theorem str_append_ne_empty_left {a : String} (b : String) (ha : a ≠ "") :
    a ++ b ≠ "" := by
  intro h
  apply ha
  have hd := congrArg String.data h
  rw [String.data_append] at hd
  have hnil : a.data = [] := (List.append_eq_nil.mp hd).1
  cases a with
  | mk l =>
    simp only [String.data] at hnil
    subst hnil
    rfl

/-- The manual-link URL, when built, is never the empty string. -/
theorem buildCreateMrUrl_ne_empty {p : ParsedRemote} {s t u : String}
    (h : buildCreateMrUrl p s t = some u) : u ≠ "" := by
  cases hpr : p.provider
  case github =>
    simp only [buildCreateMrUrl, hpr] at h
    injection h with h'
    subst h'
    repeat' apply str_append_ne_empty_left
    decide
  case gitlab =>
    simp only [buildCreateMrUrl, hpr] at h
    injection h with h'
    subst h'
    repeat' apply str_append_ne_empty_left
    decide
  case unknown =>
    simp only [buildCreateMrUrl, hpr] at h
    exact Option.noConfusion h

/-- The no-tool error is the hint for the computed manual URL. -/
theorem createMergeRequest_no_tools (env : MrEnv)
    (parsed : Option ParsedRemote) (src tgt : String)
    (hglab : env.glabExists = false) (hgh : env.ghExists = false) :
    createMergeRequest env parsed src tgt =
      ([], .error (mrHint (mrUrlOf parsed src tgt))) := by
  have hloop : ∀ mrUrl, createMrLoop env mrUrl ["glab", "gh"] =
      ([], .error (mrHint mrUrl)) := by
    intro mrUrl
    simp [createMrLoop, toolExists, hglab, hgh]
  rcases parsed with _ | p
  · exact hloop _
  · rcases hpr : p.provider <;>
      simp [createMergeRequest, candidatesFor, hpr, hloop, toolExists,
        hglab, hgh, createMrLoop]

/-- Claim C6, counterexample: the remote
`https://bitbucket.org/acme/widget.git` parses successfully (provider
`unknown`), yet with no provider CLI installed the failure message
contains no manual link — refuting "embeds a manual URL exactly when the
remote URL was successfully parsed". -/
theorem c6_counterexample :
    parseRemoteUrl "https://bitbucket.org/acme/widget.git" =
      some ⟨"bitbucket.org", "acme", "widget", Provider.unknown⟩ ∧
    createMergeRequest ⟨false, false, ⟨1, "", ""⟩, ⟨1, "", ""⟩⟩
      (parseRemoteUrl "https://bitbucket.org/acme/widget.git")
      "feat-x" "main" = ([], .error mrBaseHint) ∧
    strContains mrBaseHint "manual link" = false := by
  refine ⟨by decide, by rfl, by decide⟩

/-- Claim C6 (amended): with no provider CLI available, the operation
fails with the hint message; that message embeds
`manual link: <url>` exactly when the remote parsed **and** the provider
is recognized (github/gitlab — i.e. `buildCreateMrUrl` yields a URL),
and is exactly the three fixed lines (which never mention a manual link)
when parsing failed or the provider is unknown. -/
theorem c6_manual_link_iff_url_built (env : MrEnv)
    (parsed : Option ParsedRemote) (src tgt : String)
    (hglab : env.glabExists = false) (hgh : env.ghExists = false) :
    createMergeRequest env parsed src tgt =
      ([], .error (mrHint (mrUrlOf parsed src tgt))) ∧
    (∀ u, mrUrlOf parsed src tgt = some u →
      mrHint (mrUrlOf parsed src tgt) =
        mrBaseHint ++ "\n" ++ "manual link: " ++ u) ∧
    (mrUrlOf parsed src tgt = none →
      mrHint (mrUrlOf parsed src tgt) = mrBaseHint) ∧
    ((mrUrlOf parsed src tgt).isSome = true ↔
      ∃ p, parsed = some p ∧
        (p.provider = Provider.github ∨ p.provider = Provider.gitlab)) ∧
    strContains mrBaseHint "manual link" = false := by
  refine ⟨createMergeRequest_no_tools env parsed src tgt hglab hgh,
    ?_, ?_, ?_, by decide⟩
  · intro u hu
    have hne : u ≠ "" := by
      rcases parsed with _ | p
      · exact absurd hu (by simp [mrUrlOf])
      · exact buildCreateMrUrl_ne_empty (by simpa [mrUrlOf] using hu)
    rw [hu]
    simp [mrHint, mrBaseHint, strJoinNl, jsTruthy, hne,
      ← String.append_assoc]
  · intro hu
    rw [hu]
    simp [mrHint, mrBaseHint, strJoinNl, jsTruthy]
  · rcases parsed with _ | p
    · simp [mrUrlOf]
    · cases hpr : p.provider <;>
        simp [mrUrlOf, buildCreateMrUrl, hpr]

/-- Witness for C6: a GitHub remote yields a hint ending in the manual
compare link; an unknown-provider remote yields the bare hint. -/
theorem c6_manual_link_iff_url_built_witness :
    createMergeRequest ⟨false, false, ⟨1, "", ""⟩, ⟨1, "", ""⟩⟩
      (some ⟨"github.com", "acme", "widget", Provider.github⟩)
      "feat-x" "main" =
      ([], .error (mrBaseHint ++ "\n" ++ "manual link: " ++
        "https://github.com/acme/widget/compare/main...feat-x?expand=1")) ∧
    createMergeRequest ⟨false, false, ⟨1, "", ""⟩, ⟨1, "", ""⟩⟩
      (some ⟨"bitbucket.org", "acme", "widget", Provider.unknown⟩)
      "feat-x" "main" = ([], .error mrBaseHint) := by
  have h1 := c6_manual_link_iff_url_built
    ⟨false, false, ⟨1, "", ""⟩, ⟨1, "", ""⟩⟩
    (some ⟨"github.com", "acme", "widget", Provider.github⟩)
    "feat-x" "main" rfl rfl
  have h2 := c6_manual_link_iff_url_built
    ⟨false, false, ⟨1, "", ""⟩, ⟨1, "", ""⟩⟩
    (some ⟨"bitbucket.org", "acme", "widget", Provider.unknown⟩)
    "feat-x" "main" rfl rfl
  constructor
  · rw [h1.1, h1.2.1
      "https://github.com/acme/widget/compare/main...feat-x?expand=1"
      (by decide)]
  · rw [h2.1, h2.2.2.1 (by decide)]

/-! ### C10 -/

/-- Claim C10: path availability alone governs the fallback between the
provider CLIs.  For whichever two-tool candidate order the remote
selects: if the first candidate exists on the path it is the only tool
ever invoked, and if its create command exits non-zero the whole
operation throws that tool's failure message (built solely from that
tool's captured output — the manual URL does not appear in it); the
second candidate is invoked only when the first does not exist, with the
same non-zero behaviour. -/
theorem c10_first_available_cli_wins (env : MrEnv)
    (parsed : Option ParsedRemote) (src tgt t1 t2 : String)
    (hc : candidatesFor parsed = [t1, t2]) :
    (toolExists env t1 = true →
      (createMergeRequest env parsed src tgt).1 = [.runTool t1]) ∧
    (toolExists env t1 = true → (toolRun env t1).code ≠ 0 →
      createMergeRequest env parsed src tgt =
        ([.runTool t1], .error (toolFailMsg env t1))) ∧
    (toolExists env t1 = false → toolExists env t2 = true →
      (toolRun env t2).code ≠ 0 →
      createMergeRequest env parsed src tgt =
        ([.runTool t2], .error (toolFailMsg env t2))) := by
  have hcase : (t1 = "glab" ∧ t2 = "gh") ∨ (t1 = "gh" ∧ t2 = "glab") := by
    rcases parsed with _ | p
    · simp [candidatesFor] at hc
      exact Or.inl ⟨hc.1.symm, hc.2.symm⟩
    · cases hpr : p.provider <;> simp [candidatesFor, hpr] at hc
      · exact Or.inr ⟨hc.1.symm, hc.2.symm⟩
      · exact Or.inl ⟨hc.1.symm, hc.2.symm⟩
      · exact Or.inl ⟨hc.1.symm, hc.2.symm⟩
  rcases hcase with ⟨h1, h2⟩ | ⟨h1, h2⟩ <;> subst h1 <;> subst h2 <;>
    refine ⟨?_, ?_, ?_⟩
  · intro hex
    by_cases hcode : (toolRun env "glab").code = 0 <;>
      simp [createMergeRequest, hc, createMrLoop, hex, runMrTool, hcode]
  · intro hex hcode
    simp [createMergeRequest, hc, createMrLoop, hex, runMrTool, hcode]
  · intro hex1 hex2 hcode
    simp [createMergeRequest, hc, createMrLoop, hex1, hex2, runMrTool,
      hcode]
  · intro hex
    by_cases hcode : (toolRun env "gh").code = 0 <;>
      simp [createMergeRequest, hc, createMrLoop, hex, runMrTool, hcode]
  · intro hex hcode
    simp [createMergeRequest, hc, createMrLoop, hex, runMrTool, hcode]
  · intro hex1 hex2 hcode
    simp [createMergeRequest, hc, createMrLoop, hex1, hex2, runMrTool,
      hcode]

/-- Witness for C10: `glab` present but failing, `gh` absent — the error
is glab's message and `gh` is never run. -/
theorem c10_first_available_cli_wins_witness :
    createMergeRequest ⟨true, false, ⟨1, "", "boom"⟩, ⟨0, "", ""⟩⟩ none
      "feat-x" "main" =
      ([.runTool "glab"],
       .error "failed to create merge request via glab.\nboom") := by
  have h := (c10_first_available_cli_wins
    ⟨true, false, ⟨1, "", "boom"⟩, ⟨0, "", ""⟩⟩ none "feat-x" "main"
    "glab" "gh" rfl).2.1 rfl (by decide)
  rw [h]
  rfl
